import Mathlib

/-!
Verification of the PURRINT text-mode print path.

Shallow embedding of `src/components/PurrintApp.tsx` (the text-mode
rasterization and print pipeline): `normalizeTextForPrinting`,
`wrapMonospaceText`, the luminance-threshold pass of `renderTextToCanvas`,
and the text branch of `onPrintClick`.

JS strings are modelled as `List Char`; JS numbers that take fractional
values (`measureText` widths, `fontSize * lineHeight`) are modelled as `ℚ`
(all quantities involved are exact in tenths, so rational arithmetic agrees
with the source's floating point on every `Math.floor`/`Math.ceil` the code
takes); integral DOM quantities (`scrollHeight`, pixel sizes, channel
samples) are `ℕ`.  Browser facilities the component calls but does not
define (`measureText("M").width`, the pixels produced by canvas text
drawing, the textarea's `scrollHeight`) are parameters of a `RasterEnv`.
-/

namespace Purrint

/-! ## Constants (PurrintApp.tsx lines 12-19) -/

def PREVIEW_WIDTH : Nat := 384
def TEXT_PADDING : Nat := 16
def TEXT_FONT_SIZE : Nat := 16
def TEXT_LINE_HEIGHT : ℚ := 14 / 10
def MIN_TEXT_HEIGHT : Nat := 120
def TEXT_THRESHOLD : Nat := 200

/-! ## Pixels and image data -/

/-- One RGBA pixel of a canvas `ImageData` (four 0-255 samples). -/
structure Pixel where
  r : Nat
  g : Nat
  b : Nat
  a : Nat
deriving DecidableEq

/-- A canvas `ImageData`: dimensions plus the RGBA pixel array. -/
structure ImageData where
  width : Nat
  height : Nat
  data : List Pixel
deriving DecidableEq

def whitePixel : Pixel := ⟨255, 255, 255, 255⟩

def blackPixel : Pixel := ⟨0, 0, 0, 0⟩

/-- The luminance sample the threshold loop reads for a pixel:
`const luminance = data[i]` (line 333), i.e. the red channel. -/
def lumSample (p : Pixel) : Nat := p.r

/-- One iteration of the threshold loop (lines 332-338): quantize to 0/255
by comparing the sample against the threshold, write the value to the
red, green and blue channels, leave alpha untouched. -/
def thresholdPixel (threshold : Nat) (p : Pixel) : Pixel :=
  let value := if lumSample p < threshold then 0 else 255
  ⟨value, value, value, p.a⟩

/-- The whole threshold pass over the `ImageData` pixel array. -/
def thresholdPass (threshold : Nat) (data : List Pixel) : List Pixel :=
  data.map (thresholdPixel threshold)

/-- Modelled from the spec: the luminance of §4.2 step 1, the "unweighted
average of its red/green/blue channels (alpha ignored)" that claim C4
asserts the threshold pass samples. -/
def unweightedAvgLuminance (p : Pixel) : Nat := (p.r + p.g + p.b) / 3

/-! ## Text normalization (lines 264-266) -/

/-- Embeds `value.replace(/\t/g, "    ")`: every tab becomes four spaces. -/
def normalizeTextForPrinting : List Char → List Char
  | [] => []
  | c :: rest =>
      (if c = '\t' then [' ', ' ', ' ', ' '] else [c]) ++
        normalizeTextForPrinting rest

/-! ## Monospace wrapping (lines 361-423) -/

/-- Embeds `char === " " || char === "\t" || char === "-"` (lines 389, 406). -/
def isBreakChar (c : Char) : Bool := c == ' ' || c == '\t' || c == '-'

/-- One iteration of the rescan loop (lines 404-410): `j` advances, and a
breakable character at index `j` sets the recorded break position to
`j + 1`. -/
def rescanStep (p : Nat × Int) (c : Char) : Nat × Int :=
  (p.1 + 1, if isBreakChar c then (p.1 : Int) + 1 else p.2)

/-- The rescan loop over the carried-over line (lines 402-410): the value
both `lastBreakColumn` and `lastBreakIndex` hold afterwards
(index of the last breakable character, plus one; `-1` if none). -/
def rescanBreak (l : List Char) : Int :=
  (l.foldl rescanStep ((0 : Nat), (-1 : Int))).2

/-- The mutable locals of `wrapMonospaceText`'s scan loop. -/
structure WrapState where
  lines : List (List Char)
  currentLine : List Char
  column : Nat
  lastBreakColumn : Int
  lastBreakIndex : Int
deriving DecidableEq

def initWrapState : WrapState := ⟨[], [], 0, -1, -1⟩

/-- Value of `lastBreakColumn` after the character is appended (lines 386-392):
the new column when the character is breakable, the old value otherwise. -/
def newLbc (s : WrapState) (c : Char) : Int :=
  if isBreakChar c then ((s.column + 1 : Nat) : Int) else s.lastBreakColumn

/-- Value of `lastBreakIndex` after the character is appended (lines 386-392):
the new `currentLine.length` when the character is breakable, the old
value otherwise. -/
def newLbi (s : WrapState) (c : Char) : Int :=
  if isBreakChar c then ((s.currentLine.length + 1 : Nat) : Int)
  else s.lastBreakIndex

/-- The body of the `for` loop of `wrapMonospaceText` (lines 378-419) for
one character: a newline pushes the current line; otherwise the character
is appended, the column and break bookkeeping advance, and when the
column reaches the limit the line is split at the recorded break index
(when it is positive and strictly before the column) or pushed whole. -/
def wrapStep (limit : Nat) (s : WrapState) (c : Char) : WrapState :=
  if c = '\n' then
    ⟨s.lines ++ [s.currentLine], [], 0, -1, -1⟩
  else if limit ≤ s.column + 1 then
    if 0 < newLbc s c ∧ newLbc s c < ((s.column + 1 : Nat) : Int) then
      ⟨s.lines ++ [(s.currentLine ++ [c]).take (newLbi s c).toNat],
        (s.currentLine ++ [c]).drop (newLbi s c).toNat,
        ((s.currentLine ++ [c]).drop (newLbi s c).toNat).length,
        rescanBreak ((s.currentLine ++ [c]).drop (newLbi s c).toNat),
        rescanBreak ((s.currentLine ++ [c]).drop (newLbi s c).toNat)⟩
    else
      ⟨s.lines ++ [s.currentLine ++ [c]], [], 0, -1, -1⟩
  else
    ⟨s.lines, s.currentLine ++ [c], s.column + 1, newLbc s c, newLbi s c⟩

/-- Embeds `value.replace(/\r\n/g, "\n")` (line 363). -/
def normalizeNewlines : List Char → List Char
  | [] => []
  | '\r' :: '\n' :: rest => '\n' :: normalizeNewlines rest
  | c :: rest => c :: normalizeNewlines rest

/-- Embeds `wrapMonospaceText` (lines 361-423).  The caller always passes an
integral `maxCharsPerLine`, modelled as `ℕ`; the effective limit is
`Math.max(1, maxCharsPerLine)`. -/
def wrapMonospaceText (value : List Char) (maxCharsPerLine : Nat) :
    List (List Char) :=
  let limit := max 1 maxCharsPerLine
  let final := (normalizeNewlines value).foldl (wrapStep limit) initWrapState
  final.lines ++ [final.currentLine]

/-- The loop invariant of `wrapMonospaceText`'s scan: `column` mirrors the
current line's length and stays below the limit, the two break registers
agree and hold exactly what a rescan of the current line would produce,
and every line already pushed fits the limit. -/
abbrev WrapInv (limit : Nat) (s : WrapState) : Prop :=
  s.column = s.currentLine.length ∧
  s.currentLine.length < limit ∧
  s.lastBreakIndex = rescanBreak s.currentLine ∧
  s.lastBreakColumn = s.lastBreakIndex ∧
  ∀ l ∈ s.lines, l.length ≤ limit

/-! ## renderTextToCanvas (lines 268-342) -/

/-- Browser-provided facts the component consumes but does not define:
the measured width of `"M"` in the chosen font, the pixels the canvas
holds after the fill/fillText drawing, and the textarea's `scrollHeight`. -/
structure RasterEnv where
  mWidth : ℚ
  raster : Nat → Nat → List (List Char) → List Pixel
  scrollHeight : Nat

/-- The options record passed to `renderTextToCanvas` (the `canvas` and
`fontFamily` members are browser objects carried by `RasterEnv`). -/
structure RenderOptions where
  text : List Char
  width : Nat
  height : Nat
  fontSize : Nat
  lineHeight : ℚ
  padding : Nat
  threshold : Nat

/-- Embeds `context.measureText("M").width || fontSize * 0.6` (line 299). -/
def effectiveCharWidth (mWidth : ℚ) (fontSize : Nat) : ℚ :=
  if mWidth = 0 then (fontSize : ℚ) * (6 / 10) else mWidth

/-- Embeds `maxWidth = Math.max(1, width - padding * 2)` and
`maxCharsPerLine = Math.max(1, Math.floor(maxWidth / charWidth))`
(lines 298-300). -/
def maxCharsPerLineFor (mWidth : ℚ) (width padding fontSize : Nat) : Nat :=
  let maxWidth : ℚ := max 1 ((width : ℚ) - (padding : ℚ) * 2)
  (max 1 (Int.floor (maxWidth / effectiveCharWidth mWidth fontSize))).toNat

/-- Embeds `requiredHeight = Math.max(height, padding * 2 + lines.length *
lineHeightPx)` (lines 303-307). -/
def requiredHeightFor (o : RenderOptions) (numLines : Nat) : ℚ :=
  max (o.height : ℚ)
    ((o.padding : ℚ) * 2 + (numLines : ℚ) * ((o.fontSize : ℚ) * o.lineHeight))

/-- Embeds `renderTextToCanvas` (lines 268-342): wrap the text, size the canvas
(`canvas.width = width`, `canvas.height = Math.ceil(requiredHeight)`),
read back the drawn pixels, and run the threshold pass over them. -/
def renderTextToCanvas (env : RasterEnv) (o : RenderOptions) : ImageData :=
  let maxChars := maxCharsPerLineFor env.mWidth o.width o.padding o.fontSize
  let lines := wrapMonospaceText o.text maxChars
  let canvasHeight := (Int.ceil (requiredHeightFor o lines.length)).toNat
  { width := o.width
    height := canvasHeight
    data := thresholdPass o.threshold (env.raster o.width canvasHeight lines) }

/-! ## onPrintClick, text branch (lines 110-148) -/

/-- JavaScript `String.prototype.trim` whitespace (the characters relevant
to this component's inputs). -/
def isJsWhitespace (c : Char) : Bool :=
  c == ' ' || c == '\t' || c == '\n' || c == '\r' || c == '\x0b' ||
    c == '\x0c' || c == '\u00A0' || c == '\u2028' || c == '\u2029' ||
    c == '\uFEFF'

/-- JavaScript `String.prototype.trim`: strip whitespace from both ends. -/
def jsTrim (l : List Char) : List Char :=
  ((l.dropWhile isJsWhitespace).reverse.dropWhile isJsWhitespace).reverse

/-- What the text branch of `onPrintClick` does: which alert fires, or the
`ImageData` handed to `printImage`. -/
inductive PrintAction where
  | alertEnterText
  | alertNoCanvas
  | printed (img : ImageData)
deriving DecidableEq

/-- The `mode === "text"` branch of `onPrintClick` (lines 110-148):
reject blank text, reject a missing canvas/textarea, otherwise render at
`contentHeight = Math.max(textareaElement.scrollHeight, MIN_TEXT_HEIGHT)`
with the fixed width/font/padding/threshold constants and hand the result
to `printImage`. -/
def onPrintClickText (env : RasterEnv) (canvasPresent textareaPresent : Bool)
    (textInput : List Char) : PrintAction :=
  let printableText := normalizeTextForPrinting textInput
  if jsTrim printableText = [] then
    .alertEnterText
  else if !(canvasPresent && textareaPresent) then
    .alertNoCanvas
  else
    let contentHeight := max env.scrollHeight MIN_TEXT_HEIGHT
    .printed (renderTextToCanvas env
      { text := printableText
        width := PREVIEW_WIDTH
        height := contentHeight
        fontSize := TEXT_FONT_SIZE
        lineHeight := TEXT_LINE_HEIGHT
        padding := TEXT_PADDING
        threshold := TEXT_THRESHOLD })

/-! ## Spec-side reference definitions -/

/-- Modelled from the spec: the bitmap height claim C2 asserts for the text
path — "the larger of the fixed minimum height (120) and
`padding*2 + lines.length * fontSize*lineHeight`". -/
def claimTextHeight (numLines : Nat) : Nat :=
  max MIN_TEXT_HEIGHT
    (Int.ceil ((TEXT_PADDING : ℚ) * 2 +
      (numLines : ℚ) * ((TEXT_FONT_SIZE : ℚ) * TEXT_LINE_HEIGHT))).toNat

/-- Modelled from the spec: claim C6's split at the column limit — break
immediately after the last breakable character lying strictly before the
limit, hard-break when there is none. -/
def claimSplit (limit : Nat) (cur : List Char) : List Char × List Char :=
  let k := rescanBreak (cur.take (limit - 1))
  if 0 < k then (cur.take k.toNat, cur.drop k.toNat) else (cur, [])

/-- Modelled from the spec: the wrapping rule claim C6 describes, applied
greedily to the newline-normalized input. -/
def wrapByClaimGo (limit : Nat) (cur : List Char) : List Char → List (List Char)
  | [] => [cur]
  | c :: rest =>
      if c = '\n' then cur :: wrapByClaimGo limit [] rest
      else
        let cur2 := cur ++ [c]
        if limit ≤ cur2.length then
          let p := claimSplit limit cur2
          p.1 :: wrapByClaimGo limit p.2 rest
        else
          wrapByClaimGo limit cur2 rest

/-- Modelled from the spec: claim C6's wrapping algorithm as a whole. -/
def wrapByClaim (value : List Char) (maxCharsPerLine : Nat) :
    List (List Char) :=
  wrapByClaimGo (max 1 maxCharsPerLine) [] (normalizeNewlines value)

/-! ## Concrete test environments -/

/-- A raster stub: the dimension and threshold claims do not depend on the
pixels the browser draws. -/
def testRaster : Nat → Nat → List (List Char) → List Pixel :=
  fun _ _ _ => []

/-- A browser environment whose `"M"` measures 9px (the IBM VGA 9x16 glyph
cell) and whose textarea content height is 100px. -/
def envShort : RasterEnv := ⟨9, testRaster, 100⟩

/-- Same metrics with a 500px-tall textarea. -/
def envTall : RasterEnv := ⟨9, testRaster, 500⟩

def helloChars : List Char := ['H', 'e', 'l', 'l', 'o']

/-- The options record the print path builds for `envShort`. -/
def helloOptions : RenderOptions :=
  { text := normalizeTextForPrinting helloChars
    width := PREVIEW_WIDTH
    height := max envShort.scrollHeight MIN_TEXT_HEIGHT
    fontSize := TEXT_FONT_SIZE
    lineHeight := TEXT_LINE_HEIGHT
    padding := TEXT_PADDING
    threshold := TEXT_THRESHOLD }

/-- The options record the print path builds for `envTall`. -/
def helloOptionsTall : RenderOptions :=
  { text := normalizeTextForPrinting helloChars
    width := PREVIEW_WIDTH
    height := max envTall.scrollHeight MIN_TEXT_HEIGHT
    fontSize := TEXT_FONT_SIZE
    lineHeight := TEXT_LINE_HEIGHT
    padding := TEXT_PADDING
    threshold := TEXT_THRESHOLD }

/-! ## Helper lemmas -/

lemma rescan_fst (l : List Char) (n : Nat) (a : Int) :
    (l.foldl rescanStep (n, a)).1 = n + l.length := by
  induction l generalizing n a with
  | nil => simp
  | cons c rest ih =>
      simp only [List.foldl_cons, rescanStep, ih, List.length_cons]
      omega

lemma rescanBreak_nil : rescanBreak [] = -1 := rfl

lemma rescanBreak_append (l : List Char) (c : Char) :
    rescanBreak (l ++ [c]) =
      if isBreakChar c then ((l.length : Nat) : Int) + 1 else rescanBreak l := by
  unfold rescanBreak
  rw [List.foldl_append]
  simp only [List.foldl_cons, List.foldl_nil, rescanStep]
  rw [rescan_fst l 0 (-1)]
  simp

lemma rescanBreak_cases (l : List Char) :
    rescanBreak l = -1 ∨ (1 ≤ rescanBreak l ∧ rescanBreak l ≤ (l.length : Int)) := by
  induction l using List.reverseRecOn with
  | nil => left; rfl
  | append_singleton l c ih =>
      rw [rescanBreak_append]
      by_cases hb : isBreakChar c
      · rw [if_pos hb]
        right
        constructor
        · omega
        · simp only [List.length_append, List.length_singleton]
          omega
      · rw [if_neg hb]
        rcases ih with h | ⟨h1, h2⟩
        · left; exact h
        · right
          refine ⟨h1, h2.trans ?_⟩
          simp only [List.length_append, List.length_singleton]
          omega

lemma rescanBreak_eq_neg_one_iff (l : List Char) :
    rescanBreak l = -1 ↔ ∀ c ∈ l, isBreakChar c = false := by
  induction l using List.reverseRecOn with
  | nil => simp [rescanBreak_nil]
  | append_singleton l a ih =>
      rw [rescanBreak_append]
      by_cases hb : isBreakChar a
      · rw [if_pos hb]
        constructor
        · intro h; omega
        · intro h
          exact absurd (h a (by simp)) (by simp [hb])
      · rw [if_neg hb, ih]
        constructor
        · intro h c hc
          rcases List.mem_append.mp hc with h1 | h1
          · exact h c h1
          · simp only [List.mem_singleton] at h1
            subst h1
            simpa using hb
        · intro h c hc
          exact h c (List.mem_append.mpr (Or.inl hc))

lemma rescanBreak_pos_spec (l : List Char) (h : 0 < rescanBreak l) :
    ∃ j, ∃ hj : j < l.length, rescanBreak l = (j : Int) + 1 ∧
      isBreakChar (l.get ⟨j, hj⟩) = true ∧
      ∀ i, ∀ hi : i < l.length, j < i → isBreakChar (l.get ⟨i, hi⟩) = false := by
  induction l using List.reverseRecOn with
  | nil => simp [rescanBreak_nil] at h
  | append_singleton l a ih =>
      rw [rescanBreak_append] at h ⊢
      by_cases hb : isBreakChar a
      · rw [if_pos hb]
        refine ⟨l.length, by simp, by simp, ?_, ?_⟩
        · have : (l ++ [a]).get ⟨l.length, by simp⟩ = a := by
            simp [List.get_eq_getElem]
          rw [this, hb]
        · intro i hi hgt
          simp only [List.length_append, List.length_singleton] at hi
          omega
      · rw [if_neg hb] at h ⊢
        obtain ⟨j, hj, heq, hbrk, htail⟩ := ih h
        refine ⟨j, by simp; omega, heq, ?_, ?_⟩
        · have : (l ++ [a]).get ⟨j, by simp; omega⟩ = l.get ⟨j, hj⟩ := by
            simp [List.get_eq_getElem, List.getElem_append_left hj]
          rw [this, hbrk]
        · intro i hi hgt
          simp only [List.length_append, List.length_singleton] at hi
          by_cases hil : i < l.length
          · have : (l ++ [a]).get ⟨i, by simp; omega⟩ = l.get ⟨i, hil⟩ := by
              simp [List.get_eq_getElem, List.getElem_append_left hil]
            rw [this]
            exact htail i hil hgt
          · have hie : i = l.length := by omega
            subst hie
            have : (l ++ [a]).get ⟨l.length, by simp⟩ = a := by
              simp [List.get_eq_getElem]
            rw [this]
            simpa using hb

lemma newLbi_eq (s : WrapState) (c : Char)
    (h3 : s.lastBreakIndex = rescanBreak s.currentLine) :
    newLbi s c = rescanBreak (s.currentLine ++ [c]) := by
  unfold newLbi
  rw [rescanBreak_append]
  by_cases hb : isBreakChar c
  · rw [if_pos hb, if_pos hb]
    push_cast
    ring
  · rw [if_neg hb, if_neg hb, h3]

lemma newLbc_eq_newLbi (s : WrapState) (c : Char)
    (h1 : s.column = s.currentLine.length)
    (h4 : s.lastBreakColumn = s.lastBreakIndex) :
    newLbc s c = newLbi s c := by
  unfold newLbc newLbi
  rw [h1, h4]

lemma initWrapState_inv (limit : Nat) (hlim : 1 ≤ limit) :
    WrapInv limit initWrapState :=
  ⟨rfl, hlim, rfl, rfl, by simp [initWrapState]⟩

lemma wrapStep_inv (limit : Nat) (s : WrapState) (c : Char)
    (hlim : 1 ≤ limit) (h : WrapInv limit s) :
    WrapInv limit (wrapStep limit s c) := by
  obtain ⟨h1, h2, h3, h4, h5⟩ := h
  by_cases hc : c = '\n'
  · simp only [wrapStep, if_pos hc]
    refine ⟨rfl, hlim, rfl, rfl, ?_⟩
    intro l hl
    rcases List.mem_append.mp hl with hm | hm
    · exact h5 l hm
    · simp only [List.mem_singleton] at hm
      subst hm
      exact le_of_lt h2
  · simp only [wrapStep, if_neg hc]
    have hlbi : newLbi s c = rescanBreak (s.currentLine ++ [c]) := newLbi_eq s c h3
    have hlbc : newLbc s c = newLbi s c := newLbc_eq_newLbi s c h1 h4
    by_cases hfire : limit ≤ s.column + 1
    · rw [if_pos hfire]
      have hcol : s.column + 1 = limit := by omega
      by_cases hsoft : 0 < newLbc s c ∧ newLbc s c < ((s.column + 1 : Nat) : Int)
      · rw [if_pos hsoft]
        have hknn : (0 : Int) ≤ newLbi s c := le_of_lt (hlbc ▸ hsoft.1)
        have hkval : newLbi s c = ((newLbi s c).toNat : Int) :=
          (Int.toNat_of_nonneg hknn).symm
        have hkpos : 0 < (newLbi s c).toNat := by
          have := hsoft.1
          rw [hlbc] at this
          omega
        have hklt : (newLbi s c).toNat < s.currentLine.length + 1 := by
          have := hsoft.2
          rw [hlbc] at this
          omega
        refine ⟨rfl, ?_, rfl, rfl, ?_⟩
        · simp only [List.length_drop, List.length_append, List.length_singleton]
          omega
        · intro l hl
          rcases List.mem_append.mp hl with hm | hm
          · exact h5 l hm
          · simp only [List.mem_singleton] at hm
            subst hm
            simp only [List.length_take, List.length_append, List.length_singleton]
            omega
      · rw [if_neg hsoft]
        refine ⟨rfl, hlim, rfl, rfl, ?_⟩
        intro l hl
        rcases List.mem_append.mp hl with hm | hm
        · exact h5 l hm
        · simp only [List.mem_singleton] at hm
          subst hm
          simp only [List.length_append, List.length_singleton]
          omega
    · rw [if_neg hfire]
      refine ⟨?_, ?_, hlbi, hlbc, h5⟩
      · simp only [List.length_append, List.length_singleton]
        omega
      · simp only [List.length_append, List.length_singleton]
        omega

lemma wrapStep_fire (limit : Nat) (s : WrapState) (c : Char)
    (h : WrapInv limit s) (hc : c ≠ '\n') (hfire : limit ≤ s.column + 1) :
    (wrapStep limit s c).lines = s.lines ++
      [if 0 < rescanBreak (s.currentLine ++ [c]) ∧
          rescanBreak (s.currentLine ++ [c]) <
            (((s.currentLine ++ [c]).length : Nat) : Int)
        then (s.currentLine ++ [c]).take (rescanBreak (s.currentLine ++ [c])).toNat
        else s.currentLine ++ [c]] := by
  obtain ⟨h1, h2, h3, h4, h5⟩ := h
  have hlbi : newLbi s c = rescanBreak (s.currentLine ++ [c]) := newLbi_eq s c h3
  have hlbc : newLbc s c = newLbi s c := newLbc_eq_newLbi s c h1 h4
  have hlen : ((s.currentLine ++ [c]).length : Nat) = s.column + 1 := by
    simp only [List.length_append, List.length_singleton]
    omega
  simp only [wrapStep, if_neg hc, if_pos hfire]
  by_cases hsoft : 0 < newLbc s c ∧ newLbc s c < ((s.column + 1 : Nat) : Int)
  · rw [if_pos hsoft]
    rw [if_pos (by rw [← hlbi, ← hlbc, hlen]; exact hsoft)]
    rw [hlbi]
  · rw [if_neg hsoft]
    rw [if_neg (by rw [← hlbi, ← hlbc, hlen]; exact hsoft)]

lemma wrapStep_content (limit : Nat) (s : WrapState) (c : Char) :
    (wrapStep limit s c).lines.flatten ++ (wrapStep limit s c).currentLine =
      s.lines.flatten ++ s.currentLine ++ (if c = '\n' then [] else [c]) := by
  by_cases hc : c = '\n'
  · simp [wrapStep, if_pos hc]
  · simp only [wrapStep, if_neg hc]
    by_cases hfire : limit ≤ s.column + 1
    · rw [if_pos hfire]
      by_cases hsoft : 0 < newLbc s c ∧ newLbc s c < ((s.column + 1 : Nat) : Int)
      · rw [if_pos hsoft]
        simp [List.flatten_append, List.append_assoc]
      · rw [if_neg hsoft]
        simp [List.flatten_append, List.append_assoc]
    · rw [if_neg hfire]
      simp [List.append_assoc]

lemma foldl_wrapStep_inv (limit : Nat) (hlim : 1 ≤ limit) (cs : List Char) :
    ∀ s : WrapState, WrapInv limit s →
      WrapInv limit (cs.foldl (wrapStep limit) s) := by
  induction cs with
  | nil => intro s h; exact h
  | cons c rest ih =>
      intro s h
      exact ih (wrapStep limit s c) (wrapStep_inv limit s c hlim h)

lemma foldl_wrapStep_content (limit : Nat) (cs : List Char) :
    ∀ s : WrapState,
      (cs.foldl (wrapStep limit) s).lines.flatten ++
          (cs.foldl (wrapStep limit) s).currentLine =
        s.lines.flatten ++ s.currentLine ++
          cs.filter (fun c => !(c == '\n')) := by
  induction cs with
  | nil => intro s; simp
  | cons c rest ih =>
      intro s
      rw [List.foldl_cons, ih (wrapStep limit s c), wrapStep_content]
      by_cases hc : c = '\n'
      · simp [hc, List.filter_cons]
      · simp [hc, List.filter_cons, List.append_assoc]

lemma normalizeTextForPrinting_no_tab (v : List Char) :
    ∀ ch ∈ normalizeTextForPrinting v, ch ≠ '\t' := by
  induction v with
  | nil => simp [normalizeTextForPrinting]
  | cons c rest ih =>
      intro ch hch
      simp only [normalizeTextForPrinting] at hch
      rcases List.mem_append.mp hch with hm | hm
      · by_cases hc : c = '\t'
        · rw [if_pos hc] at hm
          fin_cases hm <;> decide
        · rw [if_neg hc] at hm
          simp only [List.mem_singleton] at hm
          subst hm
          exact hc
      · exact ih ch hm

lemma normalizeTextForPrinting_append (v w : List Char) :
    normalizeTextForPrinting (v ++ w) =
      normalizeTextForPrinting v ++ normalizeTextForPrinting w := by
  induction v with
  | nil => rfl
  | cons c rest ih =>
      simp only [List.cons_append, normalizeTextForPrinting, List.append_eq,
        ih, List.append_assoc]

lemma jsTrim_eq_nil_of_all (l : List Char)
    (h : ∀ c ∈ l, isJsWhitespace c = true) : jsTrim l = [] := by
  unfold jsTrim
  rw [List.dropWhile_eq_nil_iff.mpr h]
  rfl

lemma onPrintClickText_printed_inv (env : RasterEnv) (cp tp : Bool)
    (txt : List Char) (img : ImageData)
    (h : onPrintClickText env cp tp txt = .printed img) :
    img = renderTextToCanvas env
      { text := normalizeTextForPrinting txt
        width := PREVIEW_WIDTH
        height := max env.scrollHeight MIN_TEXT_HEIGHT
        fontSize := TEXT_FONT_SIZE
        lineHeight := TEXT_LINE_HEIGHT
        padding := TEXT_PADDING
        threshold := TEXT_THRESHOLD } := by
  simp only [onPrintClickText] at h
  by_cases h1 : jsTrim (normalizeTextForPrinting txt) = []
  · rw [if_pos h1] at h
    exact PrintAction.noConfusion h
  · rw [if_neg h1] at h
    by_cases h2 : (!(cp && tp)) = true
    · rw [if_pos h2] at h
      exact PrintAction.noConfusion h
    · rw [if_neg h2] at h
      injection h with h'
      exact h'.symm

lemma onPrintClickText_eq (env : RasterEnv) (txt : List Char)
    (h : ¬ jsTrim (normalizeTextForPrinting txt) = []) :
    onPrintClickText env true true txt = .printed (renderTextToCanvas env
      { text := normalizeTextForPrinting txt
        width := PREVIEW_WIDTH
        height := max env.scrollHeight MIN_TEXT_HEIGHT
        fontSize := TEXT_FONT_SIZE
        lineHeight := TEXT_LINE_HEIGHT
        padding := TEXT_PADDING
        threshold := TEXT_THRESHOLD }) := by
  simp only [onPrintClickText]
  rw [if_neg h]
  rfl

lemma maxCharsPerLineFor_nine :
    maxCharsPerLineFor 9 PREVIEW_WIDTH TEXT_PADDING TEXT_FONT_SIZE = 39 := by
  unfold maxCharsPerLineFor effectiveCharWidth PREVIEW_WIDTH TEXT_PADDING
    TEXT_FONT_SIZE
  norm_num
  rfl

/-! ## Claim theorems -/

/-- Claim C10 (confirmed): `normalizeTextForPrinting` — the normalization
applied to the textarea's value before wrapping/rasterization — replaces
every tab character by exactly four spaces and leaves every other
character unchanged, so its output never contains a tab. -/
theorem C10_normalize_replaces_tabs :
    ∀ (v w : List Char) (c : Char),
      (∀ ch ∈ normalizeTextForPrinting v, ch ≠ '\t') ∧
      normalizeTextForPrinting (v ++ w) =
        normalizeTextForPrinting v ++ normalizeTextForPrinting w ∧
      normalizeTextForPrinting ['\t'] = [' ', ' ', ' ', ' '] ∧
      (c ≠ '\t' → normalizeTextForPrinting [c] = [c]) := by
  intro v w c
  refine ⟨normalizeTextForPrinting_no_tab v,
    normalizeTextForPrinting_append v w, rfl, ?_⟩
  intro hc
  simp only [normalizeTextForPrinting, if_neg hc, List.append_nil]

/-- Witness for C10 at `v = ['\t']`, `w = ['a']`, `c = 'a'`. -/
theorem C10_normalize_replaces_tabs_witness :
    normalizeTextForPrinting ['a'] = ['a'] :=
  (C10_normalize_replaces_tabs ['\t'] ['a'] 'a').2.2.2 (by decide)

/-- Claim C3 (confirmed): the threshold pass (threshold 200) quantizes every
pixel to pure black (0) or pure white (255), the value is 0 exactly when the
pixel's luminance sample (the red channel, as read by the loop) is strictly
below the threshold and 255 otherwise, and the same value is written to the
red, green and blue channels. -/
theorem C3_threshold_binarizes :
    ∀ (p : Pixel) (data : List Pixel),
      ((thresholdPixel TEXT_THRESHOLD p).r = 0 ∨
        (thresholdPixel TEXT_THRESHOLD p).r = 255) ∧
      ((thresholdPixel TEXT_THRESHOLD p).r = 0 ↔
        lumSample p < TEXT_THRESHOLD) ∧
      ((thresholdPixel TEXT_THRESHOLD p).r = 255 ↔
        ¬ lumSample p < TEXT_THRESHOLD) ∧
      (thresholdPixel TEXT_THRESHOLD p).g = (thresholdPixel TEXT_THRESHOLD p).r ∧
      (thresholdPixel TEXT_THRESHOLD p).b = (thresholdPixel TEXT_THRESHOLD p).r ∧
      thresholdPass TEXT_THRESHOLD data =
        data.map (thresholdPixel TEXT_THRESHOLD) := by
  intro p data
  by_cases h : lumSample p < TEXT_THRESHOLD
  · refine ⟨?_, ?_, ?_, ?_, ?_, rfl⟩ <;> simp [thresholdPixel, h]
  · refine ⟨?_, ?_, ?_, ?_, ?_, rfl⟩ <;> simp [thresholdPixel, h]

/-- Counterexample to C4 as stated: for the pixel (r, g, b, a) =
(255, 0, 0, 255) the sample the loop quantizes is 255 (the red channel),
not the unweighted average 85; the discrepancy is observable: the code
leaves the pixel white, while an average of 85 lies below the threshold. -/
theorem C4_counterexample :
    lumSample ⟨255, 0, 0, 255⟩ ≠ unweightedAvgLuminance ⟨255, 0, 0, 255⟩ ∧
    (thresholdPixel TEXT_THRESHOLD ⟨255, 0, 0, 255⟩).r = 255 ∧
    unweightedAvgLuminance ⟨255, 0, 0, 255⟩ < TEXT_THRESHOLD := by
  decide

/-- Claim C4 as amended: the luminance sample used for quantization is the
pixel's red channel, with the alpha channel ignored (the output channels do
not depend on it and it passes through unchanged); for the pixels the text
raster produces, where the red, green and blue channels agree, this
coincides with the unweighted average of the three channels. -/
theorem C4_amended_red_channel_sample :
    ∀ (t r g b a a' : Nat),
      lumSample ⟨r, g, b, a⟩ = r ∧
      (r = g → g = b →
        lumSample ⟨r, g, b, a⟩ = unweightedAvgLuminance ⟨r, g, b, a⟩) ∧
      (thresholdPixel t ⟨r, g, b, a⟩).r = (thresholdPixel t ⟨r, g, b, a'⟩).r ∧
      (thresholdPixel t ⟨r, g, b, a⟩).a = a := by
  intro t r g b a a'
  refine ⟨rfl, ?_, rfl, rfl⟩
  intro hrg hgb
  subst hrg
  subst hgb
  show r = (r + r + r) / 3
  omega

/-- Witness for C4's amended claim at a gray pixel (7, 7, 7) and alphas
1 and 2. -/
theorem C4_amended_red_channel_sample_witness :
    lumSample ⟨7, 7, 7, 1⟩ = unweightedAvgLuminance ⟨7, 7, 7, 1⟩ ∧
    (thresholdPixel 200 ⟨7, 7, 7, 1⟩).r = (thresholdPixel 200 ⟨7, 7, 7, 2⟩).r :=
  ⟨(C4_amended_red_channel_sample 200 7 7 7 1 2).2.1 rfl rfl,
    (C4_amended_red_channel_sample 200 7 7 7 1 2).2.2.1⟩

lemma thresholdPass_const (q : Pixel)
    (hq : thresholdPixel TEXT_THRESHOLD q = q) :
    ∀ data : List Pixel, (∀ p ∈ data, p = q) →
      thresholdPass TEXT_THRESHOLD data = List.replicate data.length q := by
  intro data
  induction data with
  | nil => intro _; rfl
  | cons p rest ih =>
      intro h
      have hp : p = q := h p (by simp)
      have hrest := ih (fun x hx => h x (by simp [hx]))
      simp only [thresholdPass, List.map_cons, List.length_cons,
        List.replicate_succ] at hrest ⊢
      rw [hp, hq, hrest]

/-- Claim C5 (confirmed): an all-white input (every sample 255) binarizes to
all white — zero ink pixels — and an all-black input (every sample 0)
binarizes to all black — ink in every pixel. -/
theorem C5_white_and_black_preserved :
    ∀ data : List Pixel,
      ((∀ p ∈ data, p = whitePixel) →
        thresholdPass TEXT_THRESHOLD data =
          List.replicate data.length whitePixel) ∧
      ((∀ p ∈ data, p = blackPixel) →
        thresholdPass TEXT_THRESHOLD data =
          List.replicate data.length blackPixel) := by
  intro data
  exact ⟨thresholdPass_const whitePixel (by decide) data,
    thresholdPass_const blackPixel (by decide) data⟩

/-- Witness for C5 on the one-pixel all-white and all-black images. -/
theorem C5_white_and_black_preserved_witness :
    thresholdPass TEXT_THRESHOLD [whitePixel] =
      List.replicate 1 whitePixel ∧
    thresholdPass TEXT_THRESHOLD [blackPixel] =
      List.replicate 1 blackPixel :=
  ⟨(C5_white_and_black_preserved [whitePixel]).1 (by simp),
    (C5_white_and_black_preserved [blackPixel]).2 (by simp)⟩

/-- Claim C7 (confirmed): the text-to-bitmap conversion is deterministic —
`wrapMonospaceText` and the threshold pass are functions of their inputs
alone, so two runs on equal inputs produce bit-identical outputs. -/
theorem C7_deterministic :
    ∀ (v₁ v₂ : List Char) (n₁ n₂ t₁ t₂ : Nat) (d₁ d₂ : List Pixel),
      v₁ = v₂ → n₁ = n₂ → t₁ = t₂ → d₁ = d₂ →
      wrapMonospaceText v₁ n₁ = wrapMonospaceText v₂ n₂ ∧
      thresholdPass t₁ d₁ = thresholdPass t₂ d₂ := by
  intro v₁ v₂ n₁ n₂ t₁ t₂ d₁ d₂ hv hn ht hd
  subst hv; subst hn; subst ht; subst hd
  exact ⟨rfl, rfl⟩

/-- Witness for C7 at the "Hello" input and a one-pixel buffer. -/
theorem C7_deterministic_witness :
    wrapMonospaceText helloChars 39 = wrapMonospaceText helloChars 39 ∧
    thresholdPass TEXT_THRESHOLD [whitePixel] =
      thresholdPass TEXT_THRESHOLD [whitePixel] :=
  C7_deterministic helloChars helloChars 39 39 TEXT_THRESHOLD TEXT_THRESHOLD
    [whitePixel] [whitePixel] rfl rfl rfl rfl

/-- Claim C9 (confirmed): in text mode, when the normalized text is empty or
all-whitespace, `onPrintClick` stops at the "Please enter some text first"
alert — `printImage` is never invoked, whatever the browser environment and
canvas/textarea availability. -/
theorem C9_blank_text_rejected :
    ∀ (env : RasterEnv) (cp tp : Bool) (txt : List Char),
      (∀ c ∈ normalizeTextForPrinting txt, isJsWhitespace c = true) →
      onPrintClickText env cp tp txt = PrintAction.alertEnterText := by
  intro env cp tp txt h
  simp only [onPrintClickText]
  rw [if_pos (jsTrim_eq_nil_of_all _ h)]

/-- Witness for C9 at the input consisting of one tab character. -/
theorem C9_blank_text_rejected_witness :
    onPrintClickText envShort true true ['\t'] = PrintAction.alertEnterText :=
  C9_blank_text_rejected envShort true true ['\t'] (by decide)

/-- Claim C1 (confirmed): `renderTextToCanvas` produces an `ImageData` whose
width is exactly the requested width, and on the text-mode print path —
where the width passed is `PREVIEW_WIDTH` — every `ImageData` handed to
`printImage` has width exactly 384. -/
theorem C1_raster_width_384 :
    ∀ (env : RasterEnv) (o : RenderOptions) (cp tp : Bool)
      (txt : List Char) (img : ImageData),
      (renderTextToCanvas env o).width = o.width ∧
      (onPrintClickText env cp tp txt = PrintAction.printed img →
        img.width = 384) := by
  intro env o cp tp txt img
  refine ⟨rfl, ?_⟩
  intro h
  rw [onPrintClickText_printed_inv env cp tp txt img h]
  rfl

/-- Witness for C1: the "Hello" print against `envShort` goes through and
its bitmap is 384 wide. -/
theorem C1_raster_width_384_witness :
    (renderTextToCanvas envShort helloOptions).width = 384 :=
  (C1_raster_width_384 envShort helloOptions true true helloChars
      (renderTextToCanvas envShort helloOptions)).2
    (onPrintClickText_eq envShort helloChars (by decide))

/-- Claim C8 (confirmed): wrapping loses no text — concatenating the lines
`wrapMonospaceText` returns yields the input with `"\r\n"` normalized to
`"\n"` and every `"\n"` removed (each non-newline character once, in
order), and the returned list is never empty. -/
theorem C8_wrap_conserves_text :
    ∀ (v : List Char) (n : Nat),
      (wrapMonospaceText v n).flatten =
        (normalizeNewlines v).filter (fun c => !(c == '\n')) ∧
      wrapMonospaceText v n ≠ [] := by
  intro v n
  constructor
  · simp only [wrapMonospaceText]
    rw [List.flatten_append]
    simp only [List.flatten_cons, List.flatten_nil, List.append_nil]
    have h := foldl_wrapStep_content (max 1 n) (normalizeNewlines v)
      initWrapState
    simpa [initWrapState] using h
  · simp [wrapMonospaceText]

/-- The state of `wrapMonospaceText`'s scan just before the fourth
character of `"a bx"` at limit 4: current line `"a b"`, column 3, both
break registers at 2 (the position just after the space). -/
def wrapWitnessState : WrapState := ⟨[], ['a', ' ', 'b'], 3, 2, 2⟩

def aSpSp : List Char := ['a', ' ', ' ']

/-- Counterexample to C6 as stated: on input `"a  "` (a, space, space)
with limit 3, the line reaches the limit and contains a breakable
character strictly before the limit (the space at column 2), yet the
code hard-breaks — its last-break register points at the final space,
which sits exactly at the limit — emitting `["a  ", ""]` where the
claimed rule emits `["a ", " "]`. -/
theorem C6_counterexample :
    wrapMonospaceText aSpSp 3 = [['a', ' ', ' '], []] ∧
    wrapByClaim aSpSp 3 = [['a', ' '], [' ']] ∧
    wrapMonospaceText aSpSp 3 ≠ wrapByClaim aSpSp 3 := by
  decide

/-- Claim C6 as amended: every emitted line has at most `max 1 n`
characters; when a line reaches the limit it is split immediately after
the line's last breakable character provided that character lies strictly
before the limit column, and otherwise — no breakable character, or the
last one sitting exactly at the limit column — it is pushed whole
(hard-break at the limit).  The last two conjuncts pin down the break
register: it is `-1` exactly when the line holds no breakable character,
and otherwise one past the index of the last breakable character. -/
theorem C6_amended_wrap_line_limits :
    ∀ (v : List Char) (n : Nat),
      (∀ l ∈ wrapMonospaceText v n, l.length ≤ max 1 n) ∧
      (∀ (s : WrapState) (c : Char), WrapInv (max 1 n) s → c ≠ '\n' →
        max 1 n ≤ s.column + 1 →
        (wrapStep (max 1 n) s c).lines = s.lines ++
          [if 0 < rescanBreak (s.currentLine ++ [c]) ∧
              rescanBreak (s.currentLine ++ [c]) <
                (((s.currentLine ++ [c]).length : Nat) : Int)
            then (s.currentLine ++ [c]).take
              (rescanBreak (s.currentLine ++ [c])).toNat
            else s.currentLine ++ [c]]) ∧
      (∀ l : List Char,
        (rescanBreak l = -1 ↔ ∀ c ∈ l, isBreakChar c = false) ∧
        (0 < rescanBreak l →
          ∃ j, ∃ hj : j < l.length, rescanBreak l = (j : Int) + 1 ∧
            isBreakChar (l.get ⟨j, hj⟩) = true ∧
            ∀ i, ∀ hi : i < l.length, j < i →
              isBreakChar (l.get ⟨i, hi⟩) = false)) := by
  intro v n
  refine ⟨?_, ?_, ?_⟩
  · intro l hl
    simp only [wrapMonospaceText] at hl
    have hinv := foldl_wrapStep_inv (max 1 n) (le_max_left 1 n)
      (normalizeNewlines v) initWrapState
      (initWrapState_inv (max 1 n) (le_max_left 1 n))
    obtain ⟨_, h2, _, _, h5⟩ := hinv
    rcases List.mem_append.mp hl with hm | hm
    · exact h5 l hm
    · simp only [List.mem_singleton] at hm
      subst hm
      exact le_of_lt h2
  · intro s c hinv hc hfire
    exact wrapStep_fire (max 1 n) s c hinv hc hfire
  · intro l
    exact ⟨rescanBreak_eq_neg_one_iff l, rescanBreak_pos_spec l⟩

/-- Witness for C6's amended claim: a concrete split step at limit 4 from
the state holding `"a b"` with a break recorded after the space. -/
theorem C6_amended_wrap_line_limits_witness :
    (wrapStep (max 1 4) wrapWitnessState 'x').lines =
      wrapWitnessState.lines ++
        [if 0 < rescanBreak (wrapWitnessState.currentLine ++ ['x']) ∧
            rescanBreak (wrapWitnessState.currentLine ++ ['x']) <
              (((wrapWitnessState.currentLine ++ ['x']).length : Nat) : Int)
          then (wrapWitnessState.currentLine ++ ['x']).take
            (rescanBreak (wrapWitnessState.currentLine ++ ['x'])).toNat
          else wrapWitnessState.currentLine ++ ['x']] :=
  (C6_amended_wrap_line_limits [] 4).2.1 wrapWitnessState 'x'
    (by decide) (by decide) (by decide)

lemma renderTextToCanvas_height (env : RasterEnv) (o : RenderOptions) :
    (renderTextToCanvas env o).height =
      (Int.ceil (requiredHeightFor o
        (wrapMonospaceText o.text
          (maxCharsPerLineFor env.mWidth o.width o.padding
            o.fontSize)).length)).toNat := rfl

lemma ceil_min_height :
    (Int.ceil ((MIN_TEXT_HEIGHT : Nat) : ℚ)).toNat = MIN_TEXT_HEIGHT := by
  simp

/-- Counterexample to C2 as stated: with the textarea's measured content
height at 500px (`envTall`), printing `"Hello"` — which wraps to one line —
hands `printImage` a bitmap of height 500, not the
`max(120, padding*2 + lines*fontSize*lineHeight) = 120` the claim states:
the code also takes the textarea's `scrollHeight` into the maximum. -/
theorem C2_counterexample :
    onPrintClickText envTall true true helloChars =
      PrintAction.printed (renderTextToCanvas envTall helloOptionsTall) ∧
    wrapMonospaceText (normalizeTextForPrinting helloChars)
      (maxCharsPerLineFor envTall.mWidth PREVIEW_WIDTH TEXT_PADDING
        TEXT_FONT_SIZE) = [helloChars] ∧
    (renderTextToCanvas envTall helloOptionsTall).height = 500 ∧
    claimTextHeight 1 = 120 ∧
    (500 : Nat) ≠ 120 := by
  have hmcpl : maxCharsPerLineFor envTall.mWidth PREVIEW_WIDTH TEXT_PADDING
      TEXT_FONT_SIZE = 39 := maxCharsPerLineFor_nine
  have hwrap : wrapMonospaceText (normalizeTextForPrinting helloChars) 39 =
      [helloChars] := by decide
  refine ⟨onPrintClickText_eq envTall helloChars (by decide), ?_, ?_, ?_,
    by decide⟩
  · rw [hmcpl]
    exact hwrap
  · rw [renderTextToCanvas_height]
    simp only [helloOptionsTall]
    rw [hmcpl, hwrap]
    unfold requiredHeightFor
    simp only [List.length_singleton]
    rw [show max envTall.scrollHeight MIN_TEXT_HEIGHT = 500 from by decide]
    rw [max_eq_left (by norm_num [TEXT_PADDING, TEXT_FONT_SIZE,
      TEXT_LINE_HEIGHT])]
    norm_num
    rfl
  · unfold claimTextHeight
    rw [show Int.ceil ((TEXT_PADDING : ℚ) * 2 +
        ((1 : Nat) : ℚ) * ((TEXT_FONT_SIZE : ℚ) * TEXT_LINE_HEIGHT)) = 55 from
      Int.ceil_eq_iff.mpr (by norm_num [TEXT_PADDING, TEXT_FONT_SIZE,
        TEXT_LINE_HEIGHT])]
    decide

/-- Claim C2 as amended: the bitmap height the text path hands to
`printImage` is the ceiling of the largest of three quantities — the
textarea's measured content height (`scrollHeight`), the fixed minimum 120,
and `padding*2 + lines.length * fontSize*lineHeight` — not just the larger
of the last two; in particular `"Hello"` (one wrapped line at the 9px glyph
metric) yields exactly the 120 minimum whenever the measured content height
does not exceed it. -/
theorem C2_amended_height_formula :
    ∀ (env : RasterEnv) (cp tp : Bool) (txt : List Char) (img : ImageData),
      onPrintClickText env cp tp txt = PrintAction.printed img →
      (img.height = (Int.ceil (max
          ((max env.scrollHeight MIN_TEXT_HEIGHT : Nat) : ℚ)
          ((TEXT_PADDING : ℚ) * 2 +
            ((wrapMonospaceText (normalizeTextForPrinting txt)
              (maxCharsPerLineFor env.mWidth PREVIEW_WIDTH TEXT_PADDING
                TEXT_FONT_SIZE)).length : ℚ) *
              ((TEXT_FONT_SIZE : ℚ) * TEXT_LINE_HEIGHT)))).toNat) ∧
      (env.mWidth = 9 → env.scrollHeight ≤ MIN_TEXT_HEIGHT →
        txt = helloChars → img.height = MIN_TEXT_HEIGHT) := by
  intro env cp tp txt img h
  have himg := onPrintClickText_printed_inv env cp tp txt img h
  subst himg
  have h1 : (renderTextToCanvas env
      { text := normalizeTextForPrinting txt
        width := PREVIEW_WIDTH
        height := max env.scrollHeight MIN_TEXT_HEIGHT
        fontSize := TEXT_FONT_SIZE
        lineHeight := TEXT_LINE_HEIGHT
        padding := TEXT_PADDING
        threshold := TEXT_THRESHOLD }).height =
      (Int.ceil (max ((max env.scrollHeight MIN_TEXT_HEIGHT : Nat) : ℚ)
        ((TEXT_PADDING : ℚ) * 2 +
          ((wrapMonospaceText (normalizeTextForPrinting txt)
            (maxCharsPerLineFor env.mWidth PREVIEW_WIDTH TEXT_PADDING
              TEXT_FONT_SIZE)).length : ℚ) *
            ((TEXT_FONT_SIZE : ℚ) * TEXT_LINE_HEIGHT)))).toNat := rfl
  refine ⟨h1, ?_⟩
  intro hm hs ht
  subst ht
  rw [h1, hm, maxCharsPerLineFor_nine,
    show wrapMonospaceText (normalizeTextForPrinting helloChars) 39 =
      [helloChars] from by decide]
  simp only [List.length_singleton]
  rw [Nat.max_eq_right hs]
  rw [max_eq_left (by norm_num [TEXT_PADDING, TEXT_FONT_SIZE,
    TEXT_LINE_HEIGHT, MIN_TEXT_HEIGHT])]
  exact ceil_min_height

/-- Witness for C2's amended claim: the "Hello" print against `envShort`
(9px glyphs, 100px content height) satisfies both conjuncts. -/
theorem C2_amended_height_formula_witness :
    ((renderTextToCanvas envShort helloOptions).height =
      (Int.ceil (max ((max envShort.scrollHeight MIN_TEXT_HEIGHT : Nat) : ℚ)
        ((TEXT_PADDING : ℚ) * 2 +
          ((wrapMonospaceText (normalizeTextForPrinting helloChars)
            (maxCharsPerLineFor envShort.mWidth PREVIEW_WIDTH TEXT_PADDING
              TEXT_FONT_SIZE)).length : ℚ) *
            ((TEXT_FONT_SIZE : ℚ) * TEXT_LINE_HEIGHT)))).toNat) ∧
    (envShort.mWidth = 9 → envShort.scrollHeight ≤ MIN_TEXT_HEIGHT →
      helloChars = helloChars →
      (renderTextToCanvas envShort helloOptions).height = MIN_TEXT_HEIGHT) :=
  C2_amended_height_formula envShort true true helloChars
    (renderTextToCanvas envShort helloOptions)
    (onPrintClickText_eq envShort helloChars (by decide))

end Purrint
